import Mathlib

/-!
Verification development for the try-on pipeline repository.

Pure fragments of the Python sources are shallowly embedded as executable
Lean definitions:

* `app/pipeline/segmentation.py` — `exclude_face_from_mask` (identity mask).
* `app/pipeline/warping.py` — `_bbox_from_mask`, the synthetic full-garment
  mask and the control flow of `warp_clothing`.
* `app/pipeline/blending.py` — `_histogram_match` (cumulative-distribution
  lookup-table interpolation, per channel).
* `app/pipeline/inpainting.py` / `app/queue/tasks.py` — face-bbox candidate
  selection and the orchestrating Celery task `run_tryon_pipeline`.
* `app/models/loader.py` — the VRAM tier selection.

Conventions: 8-bit rasters are modelled as `Mask` (height, width and a pixel
function into `ℕ`); Python `int` is `ℤ` where negatives can occur, `ℕ`
otherwise; `float` arithmetic of numpy is modelled exactly over `ℚ`;
fallible code returns `Except`/`Option`.  Python/numpy slice semantics
(including negative stop indices, which wrap around by the axis length) are
modelled explicitly.  Opaque image operations of PIL/cv2/scipy (resampling,
homography, thin-plate spline) are parameters of the embedding, never
reimplemented.
-/

namespace Tryon

/-! ## Rasters and bounding boxes -/

/-- A single-channel 8-bit raster: `px y x` is the value at row `y`,
column `x` (numpy index order `arr[y, x]`). -/
@[ext]
structure Mask where
  H : ℕ
  W : ℕ
  px : ℕ → ℕ → ℕ

/-- Effective stop index of the Python slice `arr[… : i]` on an axis of
length `n`: a negative stop counts from the end (`n + i`, clamped at `0`),
a non-negative stop is clamped at `n`. -/
def npSliceStop (n : ℕ) (i : ℤ) : ℕ :=
  if i < 0 then ((n : ℤ) + i).toNat else min n i.toNat

/-- Embedding of `exclude_face_from_mask` (segmentation.py:116-136):
pad the bbox, clip the low edges at `0` and the high edges at the axis
length, and zero the numpy slice `arr[y1p:y2p, x1p:x2p]`.  The slice stops
`y2p`/`x2p` can still be negative (when `y2 + padding < 0`), in which case
numpy wraps them around; `npSliceStop` reproduces that. -/
def exclude_face_from_mask (mask : Mask) (face_bbox : Option (ℤ × ℤ × ℤ × ℤ))
    (padding : ℤ) : Mask :=
  match face_bbox with
  | none => mask
  | some (x1, y1, x2, y2) =>
    let y1p : ℤ := max 0 (y1 - padding)
    let y2p : ℤ := min (mask.H : ℤ) (y2 + padding)
    let x1p : ℤ := max 0 (x1 - padding)
    let x2p : ℤ := min (mask.W : ℤ) (x2 + padding)
    { mask with px := fun y x =>
        if y1p.toNat ≤ y ∧ y < npSliceStop mask.H y2p ∧
           x1p.toNat ≤ x ∧ x < npSliceStop mask.W x2p
        then 0 else mask.px y x }

/-- The rectangle obtained by expanding a bbox by `padding` and clipping the
result to the raster bounds, as the spec describes it: low edges clamped at
`0`, high edges clamped at the axis length. -/
def clipRect (H W : ℕ) (bbox : ℤ × ℤ × ℤ × ℤ) (padding : ℤ) : ℤ × ℤ × ℤ × ℤ :=
  (max 0 (bbox.1 - padding), max 0 (bbox.2.1 - padding),
   min (W : ℤ) (bbox.2.2.1 + padding), min (H : ℤ) (bbox.2.2.2 + padding))

/-- Membership of pixel `(y, x)` in `clipRect` (half-open on the high edges,
matching the numpy slice `arr[y1p:y2p, x1p:x2p]`). -/
abbrev inClipRect (H W : ℕ) (bbox : ℤ × ℤ × ℤ × ℤ) (padding : ℤ) (y x : ℕ) : Prop :=
  max 0 (bbox.1 - padding) ≤ (x : ℤ) ∧ (x : ℤ) < min (W : ℤ) (bbox.2.2.1 + padding) ∧
  max 0 (bbox.2.1 - padding) ≤ (y : ℤ) ∧ (y : ℤ) < min (H : ℤ) (bbox.2.2.2 + padding)

/-- A 10×10 all-255 mask, concrete input for boundary analysis. -/
def mask255ten : Mask := ⟨10, 10, fun _ _ => 255⟩

/-- A 4×4 mask of constant value 200, concrete input for witnesses. -/
def mask200four : Mask := ⟨4, 4, fun _ _ => 200⟩

/-! ## Warping (warping.py) -/

/-- Column `x` holds some pixel above the binarization threshold
(`mask > 127` in `_bbox_from_mask`, warping.py:35-40). -/
def colHasContent (m : Mask) (x : ℕ) : Bool :=
  (List.range m.H).any fun y => decide (127 < m.px y x)

/-- Row `y` holds some pixel above the binarization threshold. -/
def rowHasContent (m : Mask) (y : ℕ) : Bool :=
  (List.range m.W).any fun x => decide (127 < m.px y x)

/-- Columns containing thresholded content, ascending (the distinct values
of the `xs` array of `np.where(mask > 127)`). -/
def contentCols (m : Mask) : List ℕ := (List.range m.W).filter (colHasContent m)

/-- Rows containing thresholded content, ascending (the distinct values of
the `ys` array of `np.where(mask > 127)`). -/
def contentRows (m : Mask) : List ℕ := (List.range m.H).filter (rowHasContent m)

/-- Embedding of `_bbox_from_mask` (warping.py:35-40): the bounding box
`(x1, y1, x2, y2)` of the region with value above 127, or `none` when that
region is empty.  `np.where` returns coordinate arrays with multiplicity;
their min/max equal the min/max over the per-axis support lists used here. -/
def bbox_from_mask (m : Mask) : Option (ℕ × ℕ × ℕ × ℕ) :=
  match contentCols m, contentRows m with
  | x0 :: xt, y0 :: yt =>
      some (xt.foldl min x0, yt.foldl min y0, xt.foldl max x0, yt.foldl max y0)
  | _, _ => none

/-- Embedding of the synthetic full-clothing mask of `warp_clothing`
(warping.py:96-101): `np.ones((H, W)) * 255` with the 10-pixel border
cleared on all four sides. -/
def cloth_mask_np (W H : ℕ) : Mask :=
  ⟨H, W, fun y x => if y < 10 ∨ H - 10 ≤ y ∨ x < 10 ∨ W - 10 ≤ x then 0 else 255⟩

/-- The source bounding box that `warp_clothing` fits the homography and the
TPS control points from: the bbox of the synthetic full-clothing mask
(warping.py:103 `cloth_bbox = _bbox_from_mask(cloth_mask_np)`). -/
def cloth_bbox_used (W H : ℕ) : Option (ℕ × ℕ × ℕ × ℕ) :=
  bbox_from_mask (cloth_mask_np W H)

/-- Modelled from the spec: "the garment's own content bbox" — the bounding
box of the garment image's non-background content (thresholded like every
other bbox in the module).  Used only to compare the spec's description of
the source bbox with the one the code actually uses. -/
def spec_garment_content_bbox (garment : Mask) : Option (ℕ × ℕ × ℕ × ℕ) :=
  bbox_from_mask garment

/-- The four bbox corners `[(x1,y1),(x2,y1),(x2,y2),(x1,y2)]` handed to
`cv2.findHomography` (warping.py:50-58). -/
def bboxCorners : ℕ × ℕ × ℕ × ℕ → List (ℚ × ℚ)
  | (x1, y1, x2, y2) =>
    [((x1 : ℚ), (y1 : ℚ)), ((x2 : ℚ), (y1 : ℚ)), ((x2 : ℚ), (y2 : ℚ)), ((x1 : ℚ), (y2 : ℚ))]

/-- The eight `(row, col)` boundary control points (corners and edge
midpoints, `//` integer division) sampled for the TPS refinement
(warping.py:120-137). -/
def tpsPoints : ℕ × ℕ × ℕ × ℕ → List (ℚ × ℚ)
  | (x1, y1, x2, y2) =>
    [((y1 : ℚ), (x1 : ℚ)), ((y1 : ℚ), (((x1 + x2) / 2 : ℕ) : ℚ)), ((y1 : ℚ), (x2 : ℚ)),
     ((((y1 + y2) / 2 : ℕ) : ℚ), (x2 : ℚ)), ((y2 : ℚ), (x2 : ℚ)),
     ((y2 : ℚ), (((x1 + x2) / 2 : ℕ) : ℚ)), ((y2 : ℚ), (x1 : ℚ)),
     ((((y1 + y2) / 2 : ℕ) : ℚ), (x1 : ℚ))]

/-- Result of `warp_clothing`: warped garment plus pass-through placement
mask (warping.py:17-19). -/
structure WarpResult (Img : Type) where
  warped_clothing : Img
  clothing_mask : Mask

/-- The opaque image primitives `warp_clothing` calls into (PIL LANCZOS
resampling, cv2 colour conversion, RANSAC homography estimation —
which can fail, returning `None` —, perspective resampling, and the
scipy thin-plate-spline warp — whose failure the code catches).  The
embedding is parametric in them; only the module's own control flow and
bbox arithmetic are modelled concretely. -/
structure WarpOps (Img Homog : Type) where
  resizeImg : Img → ℕ × ℕ → Img
  resizeMask : Mask → ℕ × ℕ → Mask
  pilToBgr : Img → Img
  bgrToPil : Img → Img
  findHomography : List (ℚ × ℚ) → List (ℚ × ℚ) → Option Homog
  warpPerspective : Img → Homog → ℕ × ℕ → Img
  tpsWarp : List (ℚ × ℚ) → List (ℚ × ℚ) → Img → Option Img

/-- Embedding of `warp_clothing` (warping.py:84-152).  `.error ()` marks the
one uncaught failure path (`cv2.findHomography` returning `None` makes
`cv2.warpPerspective` raise); the TPS step is wrapped in `try/except` in the
source, hence its failure falls back to the homography-only result.  When
either bbox is empty the fallback returns the garment resized to target size
and the (resized) placement mask, raising nothing. -/
def warp_clothing {Img Homog : Type} (ops : WarpOps Img Homog)
    (clothing_image : Img) (person_clothing_mask : Mask) (target_size : ℕ × ℕ) :
    Except Unit (WarpResult Img) :=
  let W := target_size.1
  let H := target_size.2
  let clothing_bgr := ops.pilToBgr (ops.resizeImg clothing_image target_size)
  let person_mask_np := ops.resizeMask person_clothing_mask target_size
  let cloth_bbox := cloth_bbox_used W H
  let person_bbox := bbox_from_mask person_mask_np
  match cloth_bbox, person_bbox with
  | some cb, some pb =>
    match ops.findHomography (bboxCorners cb) (bboxCorners pb) with
    | none => .error ()
    | some M =>
      let warped := ops.warpPerspective clothing_bgr M target_size
      let warped2 :=
        match ops.tpsWarp (tpsPoints cb) (tpsPoints pb) warped with
        | some w => w
        | none => warped
      .ok ⟨ops.bgrToPil warped2, person_mask_np⟩
  | _, _ => .ok ⟨ops.resizeImg clothing_image target_size, person_mask_np⟩

/-- A 30×30 garment raster whose only non-background pixel is at
`(x, y) = (15, 15)`: its content bbox is `(15, 15, 15, 15)`. -/
def garment30 : Mask := ⟨30, 30, fun y x => if y = 15 ∧ x = 15 then 255 else 0⟩

/-- Trivial instantiation of the image primitives over `Unit` images, used
to evaluate the control-flow theorems on concrete inputs. -/
def unitOps : WarpOps Unit Unit where
  resizeImg := fun _ _ => ()
  resizeMask := fun m _ => m
  pilToBgr := id
  bgrToPil := id
  findHomography := fun _ _ => none
  warpPerspective := fun i _ _ => i
  tpsWarp := fun _ _ _ => none

/-- A 3×3 all-zero mask: no pixel above the threshold. -/
def maskZeroThree : Mask := ⟨3, 3, fun _ _ => 0⟩

/-! ## Histogram matching (blending.py) -/

/-- Bin `i` of `np.histogram(channel.ravel(), 256, [0, 256])` on 8-bit
data: the number of pixels of value `i` (blending.py:57-58). -/
def hist (px : List ℕ) (i : ℕ) : ℕ := px.countP (fun v => v == i)

/-- Entry `i` of the cumulative histogram `hist.cumsum()`
(blending.py:59-60). -/
def cdf (px : List ℕ) (i : ℕ) : ℕ := ((List.range (i + 1)).map (hist px)).sum

/-- Entry `i` of the normalized cumulative histogram `cdf / cdf[-1]`
(blending.py:61-62), over exact rationals in place of float64. -/
def cdfNorm (px : List ℕ) (i : ℕ) : ℚ := (cdf px i : ℚ) / (cdf px 255 : ℚ)

/-- The interval index `numpy.interp` picks on a 256-point grid: the
largest `j` with `xp j ≤ x`, or `none` when `x` lies below `xp 0`.  For
`x` equal to a repeated grid value this is the LAST index carrying that
value, exactly as numpy's binary search resolves ties. -/
def interpIdx (xp : ℕ → ℚ) (x : ℚ) : Option ℕ :=
  (List.range 256).foldl (fun acc j => if xp j ≤ x then some j else acc) none

/-- `numpy.interp(x, xp, fp)` on a 256-point grid: clamp below `xp 0` and
at/above `xp 255`; return `fp j` exactly when `x` hits a grid value;
linearly interpolate otherwise. -/
def npInterp (x : ℚ) (xp fp : ℕ → ℚ) : ℚ :=
  match interpIdx xp x with
  | none => fp 0
  | some j =>
    if j = 255 then fp 255
    else if xp j = x then fp j
    else fp j + (x - xp j) * (fp (j + 1) - fp j) / (xp (j + 1) - xp j)

/-- The 256-entry lookup table
`lut = np.interp(src_cdf_norm, ref_cdf_norm, np.arange(256))`
(blending.py:63). -/
def lutList (src ref : List ℕ) : List ℚ :=
  (List.range 256).map fun v =>
    npInterp (cdfNorm src v) (cdfNorm ref) (fun i => (i : ℚ))

/-- One channel of `_histogram_match`: `result[..] = lut[source[..]]`
stored into a `uint8` array (C-style truncation of the non-negative float,
i.e. the floor) (blending.py:64-65). -/
def matchChannel (src ref : List ℕ) : List ℕ :=
  src.map fun v => (Int.floor ((lutList src ref).getD v 0)).toNat

/-- A three-channel 8-bit image, each channel as its ravelled pixel list. -/
structure Rgb where
  r : List ℕ
  g : List ℕ
  b : List ℕ

/-- Embedding of `_histogram_match` (blending.py:50-65): per-channel
cumulative-distribution lookup-table interpolation of `source` toward
`reference`. -/
def histogram_match (source reference : Rgb) : Rgb :=
  ⟨matchChannel source.r reference.r, matchChannel source.g reference.g,
   matchChannel source.b reference.b⟩

/-- A channel holding only the two values 0 and 2 (value 1 absent). -/
def chTwoVals : List ℕ := [0, 0, 2, 2]

/-- A non-constant 2×2 image with pixel values 0 and 2 in every channel. -/
def imgTwoVals : Rgb := ⟨chTwoVals, chTwoVals, chTwoVals⟩

/-- A channel containing every 8-bit value exactly once. -/
def chFullRange : List ℕ := List.range 256

/-- An image whose channels each contain all 256 intensities. -/
def imgFullRange : Rgb := ⟨chFullRange, chFullRange, chFullRange⟩

/-! ## Face-bbox candidate selection (inpainting.py, tasks.py) -/

/-- Embedding of the candidate selection in `run_inpainting`
(inpainting.py:152-156): Python
`face_bbox = get_face_bbox_insightface(person_resized) or seg_face_bbox` —
a 4-tuple is always truthy, so this is exactly `Option` fallback. -/
def run_inpainting_face_bbox (insight_bbox seg_face_bbox : Option (ℤ × ℤ × ℤ × ℤ)) :
    Option (ℤ × ℤ × ℤ × ℤ) :=
  match insight_bbox with
  | some b => some b
  | none => seg_face_bbox

/-- The `seg_face_bbox` argument of the `run_inpainting` call inside
`run_tryon_pipeline` (tasks.py:79-86): the keyword is omitted there, so the
parameter takes its declared default `None` (inpainting.py:118). -/
def tasks_seg_face_bbox_arg : Option (ℤ × ℤ × ℤ × ℤ) := none

/-- The face bbox the end-to-end pipeline hands to
`exclude_face_from_mask`: the selection of `run_inpainting` applied to the
argument `run_tryon_pipeline` actually passes.  The segmentation-derived
bbox (second parameter) is available to the caller but never forwarded. -/
def pipeline_face_bbox_used (insight_bbox _seg_face_bbox : Option (ℤ × ℤ × ℤ × ℤ)) :
    Option (ℤ × ℤ × ℤ × ℤ) :=
  run_inpainting_face_bbox insight_bbox tasks_seg_face_bbox_arg

/-! ## Resource tier selection (loader.py) -/

/-- `VRAM_THRESHOLD_GB = 10.0` (loader.py:31). -/
def VRAM_THRESHOLD_GB : ℚ := 10

/-- The two execution strategies driven by the detected capacity. -/
inductive ResourceTier
  | FULL
  | CONSTRAINED
deriving DecidableEq

/-- `low_vram = vram_gb > 0 and vram_gb < VRAM_THRESHOLD_GB`
(loader.py:86). -/
def low_vram (vram_gb : ℚ) : Bool :=
  decide (vram_gb > 0) && decide (vram_gb < VRAM_THRESHOLD_GB)

/-- The tier `load_all_models` runs under: CPU-offloaded (CONSTRAINED) when
`low_vram`, full-GPU otherwise (loader.py:85-121). -/
def select_tier (vram_gb : ℚ) : ResourceTier :=
  if low_vram vram_gb then .CONSTRAINED else .FULL

/-! ## Pipeline orchestration (tasks.py) -/

/-- Structured information of a raised Python exception: its type name and
message. -/
structure ExcInfo where
  ty : String
  msg : String
deriving DecidableEq

/-- The outcome of one stage of `run_tryon_pipeline`, abstracted to whether
it raised.  Stages in source order: image decode/resize, segmentation (with
mask dilation), pose extraction, clothing warp, inpainting, blending, and
result upload/encoding. -/
structure StageResults where
  decode : Except ExcInfo Unit
  seg : Except ExcInfo Unit
  pose : Except ExcInfo Unit
  warp : Except ExcInfo Unit
  inpaint : Except ExcInfo Unit
  blend : Except ExcInfo Unit
  upload : Except ExcInfo Unit

/-- The fields of the success payload the claims observe (tasks.py:97): the
returned dict also carries the result reference (S3 URL or base64). -/
structure ResultPayload where
  job_id : String
  step : String
  progress : ℕ
deriving DecidableEq

/-- Terminal outcome of the Celery task: the returned payload, or the
FAILURE state with its structured meta
`{exc_type, exc_message, job_id}` (tasks.py:111-115). -/
inductive TaskOutcome
  | success (payload : ResultPayload)
  | failure (exc_type exc_message job_id : String)
deriving DecidableEq

/-- Observable effects of one execution of `run_tryon_pipeline`: the
`update_state(state="PROGRESS", meta={step, progress})` emissions in order,
the number of `free_gpu_memory()` calls, and the terminal outcome. -/
structure TaskRun where
  emitted : List (String × ℕ)
  freeGpuCalls : ℕ
  outcome : TaskOutcome
deriving DecidableEq

/-- The `except Exception` path of `run_tryon_pipeline` (tasks.py:109-116):
`free_gpu_memory()` then `update_state(FAILURE, meta={exc_type, exc_message,
job_id})` then re-raise.  `calls` is the total count of `free_gpu_memory`
invocations on the path (2 when the failure happened after the success-path
release). -/
def failRun (emitted : List (String × ℕ)) (e : ExcInfo) (job_id : String)
    (calls : ℕ) : TaskRun :=
  { emitted := emitted, freeGpuCalls := calls,
    outcome := .failure e.ty e.msg job_id }

/-- Embedding of the Celery task `run_tryon_pipeline` (tasks.py:33-116),
parametric in what each stage does (raise or return).  Control flow follows
the source: the `segmentation/10` emission precedes the `try`; each later
stage is preceded by its emission; `free_gpu_memory()` runs after blending
on the success path and in the `except` handler on every failure path; the
returned payload carries `step="done", progress=100`. -/
def run_tryon_pipeline (job_id : String) (s : StageResults) : TaskRun :=
  let ev1 := [("segmentation", 10)]
  match s.decode with
  | .error e => failRun ev1 e job_id 1
  | .ok _ =>
    match s.seg with
    | .error e => failRun ev1 e job_id 1
    | .ok _ =>
      let ev2 := ev1 ++ [("pose", 25)]
      match s.pose with
      | .error e => failRun ev2 e job_id 1
      | .ok _ =>
        let ev3 := ev2 ++ [("warp", 40)]
        match s.warp with
        | .error e => failRun ev3 e job_id 1
        | .ok _ =>
          let ev4 := ev3 ++ [("inpainting", 55)]
          match s.inpaint with
          | .error e => failRun ev4 e job_id 1
          | .ok _ =>
            let ev5 := ev4 ++ [("blend", 85)]
            match s.blend with
            | .error e => failRun ev5 e job_id 1
            | .ok _ =>
              match s.upload with
              | .error e => failRun ev5 e job_id 2
              | .ok _ =>
                { emitted := ev5, freeGpuCalls := 1,
                  outcome := .success ⟨job_id, "done", 100⟩ }

/-- The `(stage, progress)` pairs a poller observes across a run: the
PROGRESS emissions followed, on success, by the returned payload's pair. -/
def observedPairs (r : TaskRun) : List (String × ℕ) :=
  r.emitted ++
    (match r.outcome with
     | .success p => [(p.step, p.progress)]
     | .failure _ _ _ => [])

/-- Stage results of a run where every stage succeeds. -/
def stagesAllOk : StageResults :=
  ⟨.ok (), .ok (), .ok (), .ok (), .ok (), .ok (), .ok ()⟩

/-- Stage results of a run whose segmentation stage raises
`ValueError("boom")`. -/
def stagesSegFails : StageResults :=
  ⟨.ok (), .error ⟨"ValueError", "boom"⟩, .ok (), .ok (), .ok (), .ok (), .ok ()⟩

/-! ## Theorems: claims C9, C10, C1 -/

/-- Collapsing a repeated conditional overwrite: writing the same value to
the same region twice equals writing it once. -/
theorem if_self_collapse {α : Type} (c : Prop) [Decidable c] (v z : α) :
    (if c then v else if c then v else z) = if c then v else z := by
  by_cases h : c <;> simp [h]

/-- C9: `exclude_face_from_mask` applied with `face_bbox = None` returns the
input mask itself, pixel-for-pixel unchanged (segmentation.py:125-126). -/
theorem exclude_face_none_id (m : Mask) (p : ℤ) :
    exclude_face_from_mask m none p = m := rfl

/-- C10: `exclude_face_from_mask` is idempotent — applying it twice with the
same bbox (including `None`) and padding equals applying it once: the zeroed
slice depends only on the bbox, the padding and the raster dimensions, all
unchanged by the first application. -/
theorem exclude_face_idempotent (m : Mask) (b : Option (ℤ × ℤ × ℤ × ℤ)) (p : ℤ) :
    exclude_face_from_mask (exclude_face_from_mask m b p) b p =
      exclude_face_from_mask m b p := by
  cases b with
  | none => rfl
  | some bb =>
    obtain ⟨x1, y1, x2, y2⟩ := bb
    ext y x
    · rfl
    · rfl
    · simp only [exclude_face_from_mask]
      exact if_self_collapse _ _ _

/-- C1 (counterexample): for a bbox whose padded high edge is negative, the
numpy slice stop wraps around by the axis length, so the code zeroes pixels
far outside the clipped rectangle.  With a 10×10 all-255 mask, bbox
`(0, -5, 9, -3)` and padding `0`, the clipped expanded rectangle is
`(0, 0, 9, -3)` — it contains no pixel with row `5` under any reading — yet
the returned mask is zero at row 5, column 0. -/
theorem exclude_face_negative_stop_counterexample :
    clipRect 10 10 (0, -5, 9, -3) 0 = (0, 0, 9, -3) ∧
    ¬ inClipRect 10 10 (0, -5, 9, -3) 0 5 0 ∧
    (exclude_face_from_mask mask255ten (some (0, -5, 9, -3)) 0).px 5 0 = 0 ∧
    mask255ten.px 5 0 = 255 := by
  refine ⟨rfl, by decide, ?_, rfl⟩
  simp [exclude_face_from_mask, npSliceStop, mask255ten]

/-- C1 (amended): provided the padded high edges are non-negative
(`0 ≤ x2 + padding` and `0 ≤ y2 + padding`, always true for real
detections), the result of `exclude_face_from_mask` is zero at every pixel
inside the clipped expanded rectangle (half-open on the high edges, as the
numpy slice is) and equal to the input mask outside it; and for a 1024×1024
mask with bbox `(100,100,300,300)` and padding `30` the clipped rectangle is
`(70, 70, 330, 330)`. -/
theorem exclude_face_zero_inside_unchanged_outside
    (m : Mask) (x1 y1 x2 y2 p : ℤ) (hx : 0 ≤ x2 + p) (hy : 0 ≤ y2 + p) (y x : ℕ) :
    ((exclude_face_from_mask m (some (x1, y1, x2, y2)) p).px y x =
      if inClipRect m.H m.W (x1, y1, x2, y2) p y x then 0 else m.px y x) ∧
    clipRect 1024 1024 (100, 100, 300, 300) 30 = (70, 70, 330, 330) := by
  refine ⟨?_, by decide⟩
  have hcond :
      ((max 0 (y1 - p)).toNat ≤ y ∧ y < npSliceStop m.H (min (m.H : ℤ) (y2 + p)) ∧
       (max 0 (x1 - p)).toNat ≤ x ∧ x < npSliceStop m.W (min (m.W : ℤ) (x2 + p))) ↔
      inClipRect m.H m.W (x1, y1, x2, y2) p y x := by
    unfold npSliceStop
    rw [if_neg (show ¬ (min (m.H : ℤ) (y2 + p) < 0) by omega),
        if_neg (show ¬ (min (m.W : ℤ) (x2 + p) < 0) by omega)]
    unfold inClipRect
    dsimp only
    omega
  simp only [exclude_face_from_mask]
  exact if_congr hcond rfl rfl

/-- Witness for the amended C1 theorem at a concrete input: 4×4 mask of
constant 200, bbox `(1,1,2,2)`, padding `0`, pixel `(1,1)` (inside the
rectangle, hence zeroed). -/
theorem exclude_face_zero_inside_unchanged_outside_witness :
    (0 : ℤ) ≤ 2 + 0 ∧
    (((exclude_face_from_mask mask200four (some (1, 1, 2, 2)) 0).px 1 1 =
        if inClipRect mask200four.H mask200four.W (1, 1, 2, 2) 0 1 1 then 0
        else mask200four.px 1 1) ∧
      clipRect 1024 1024 (100, 100, 300, 300) 30 = (70, 70, 330, 330)) :=
  ⟨by decide,
   exclude_face_zero_inside_unchanged_outside mask200four 1 1 2 2 0
     (by decide) (by decide) 1 1⟩

/-! ## Theorems: claims C5, C3 -/

/-- C5: when the (resized) placement mask has no pixel above the
binarization threshold, `warp_clothing` takes the defined fallback: it
returns the garment resized to target size together with the pass-through
placement mask, and raises nothing (`.ok`, never `.error`)
(warping.py:104-112). -/
theorem warp_clothing_empty_mask_fallback {Img Homog : Type} (ops : WarpOps Img Homog)
    (clothing : Img) (mask : Mask) (target : ℕ × ℕ)
    (h : ∀ y x, (ops.resizeMask mask target).px y x ≤ 127) :
    warp_clothing ops clothing mask target =
      .ok ⟨ops.resizeImg clothing target, ops.resizeMask mask target⟩ := by
  have hcol : ∀ x, colHasContent (ops.resizeMask mask target) x = false := by
    intro x
    apply Bool.eq_false_iff.mpr
    intro hc
    rw [colHasContent, List.any_eq_true] at hc
    obtain ⟨y, _, hy⟩ := hc
    exact absurd (of_decide_eq_true hy) (not_lt.mpr (h y x))
  have hcols : contentCols (ops.resizeMask mask target) = [] := by
    simp [contentCols, hcol]
  have hb : bbox_from_mask (ops.resizeMask mask target) = none := by
    rw [bbox_from_mask, hcols]
  unfold warp_clothing
  dsimp only
  rw [hb]
  cases cloth_bbox_used target.1 target.2 <;> rfl

/-- Witness for the C5 fallback theorem: `Unit` images, a 3×3 all-zero
placement mask and target size 4×4. -/
theorem warp_clothing_empty_mask_fallback_witness :
    (∀ y x, (unitOps.resizeMask maskZeroThree (4, 4)).px y x ≤ 127) ∧
    warp_clothing unitOps () maskZeroThree (4, 4) =
      .ok ⟨unitOps.resizeImg () (4, 4), unitOps.resizeMask maskZeroThree (4, 4)⟩ :=
  ⟨fun _ _ => Nat.zero_le 127,
   warp_clothing_empty_mask_fallback unitOps () maskZeroThree (4, 4)
     (fun _ _ => Nat.zero_le 127)⟩

/-- C3 (counterexample): the source bbox `warp_clothing` uses is the bbox of
the synthetic border-cleared mask, not the garment's content bbox.  For a
30×30 target and a 30×30 garment whose only content pixel is `(15, 15)`,
the code uses `(10, 10, 19, 19)` while the garment's content bbox is
`(15, 15, 15, 15)`. -/
theorem warp_source_bbox_ne_content_bbox :
    cloth_bbox_used 30 30 = some (10, 10, 19, 19) ∧
    spec_garment_content_bbox garment30 = some (15, 15, 15, 15) ∧
    cloth_bbox_used 30 30 ≠ spec_garment_content_bbox garment30 := by
  decide

/-- Folding `min` over a list bounded below by the seed returns the seed. -/
theorem foldl_min_eq_init (x0 : ℕ) (l : List ℕ) (h : ∀ x ∈ l, x0 ≤ x) :
    l.foldl min x0 = x0 := by
  induction l generalizing x0 with
  | nil => rfl
  | cons a t ih =>
    rw [List.foldl_cons, Nat.min_eq_left (h a (List.mem_cons_self a t))]
    exact ih x0 fun x hx => h x (List.mem_cons_of_mem _ hx)

/-- Folding `max` over a list returns its greatest element (seed included). -/
theorem foldl_max_eq_of (x0 m : ℕ) (l : List ℕ) (hm : m = x0 ∨ m ∈ l)
    (h0 : x0 ≤ m) (hb : ∀ x ∈ l, x ≤ m) : l.foldl max x0 = m := by
  induction l generalizing x0 with
  | nil =>
    rcases hm with h | h
    · exact h.symm
    · exact absurd h (List.not_mem_nil m)
  | cons a t ih =>
    rw [List.foldl_cons]
    have ha : a ≤ m := hb a (List.mem_cons_self a t)
    have hbt : ∀ x ∈ t, x ≤ m := fun x hx => hb x (List.mem_cons_of_mem _ hx)
    rcases hm with h | h
    · rw [Nat.max_eq_left (h ▸ ha)]
      exact ih x0 (Or.inl h) h0 hbt
    · rcases List.mem_cons.mp h with h1 | h1
      · subst h1
        rw [Nat.max_eq_right h0]
        exact ih m (Or.inl rfl) le_rfl hbt
      · exact ih (max x0 a) (Or.inr h1) (max_le h0 ha) hbt

/-- For a tall enough raster (`21 ≤ H`), column `x` of the synthetic
full-clothing mask has content exactly when it avoids the cleared
10-pixel border: `10 ≤ x` and `x + 11 ≤ W`. -/
theorem clothMask_colHasContent_iff (W H x : ℕ) (hH : 21 ≤ H) :
    colHasContent (cloth_mask_np W H) x = true ↔ 10 ≤ x ∧ x + 11 ≤ W := by
  unfold colHasContent cloth_mask_np
  dsimp only
  rw [List.any_eq_true]
  constructor
  · rintro ⟨y, _, hpx⟩
    have hv := of_decide_eq_true hpx
    by_cases hc : y < 10 ∨ H - 10 ≤ y ∨ x < 10 ∨ W - 10 ≤ x
    · rw [if_pos hc] at hv; omega
    · push_neg at hc; omega
  · rintro ⟨h1, h2⟩
    refine ⟨10, List.mem_range.mpr (by omega), decide_eq_true ?_⟩
    have hcnd : ¬((10 : ℕ) < 10 ∨ H - 10 ≤ 10 ∨ x < 10 ∨ W - 10 ≤ x) := by omega
    rw [if_neg hcnd]
    omega

/-- For a wide enough raster (`21 ≤ W`), row `y` of the synthetic
full-clothing mask has content exactly when `10 ≤ y` and `y + 11 ≤ H`. -/
theorem clothMask_rowHasContent_iff (W H y : ℕ) (hW : 21 ≤ W) :
    rowHasContent (cloth_mask_np W H) y = true ↔ 10 ≤ y ∧ y + 11 ≤ H := by
  unfold rowHasContent cloth_mask_np
  dsimp only
  rw [List.any_eq_true]
  constructor
  · rintro ⟨x, _, hpx⟩
    have hv := of_decide_eq_true hpx
    by_cases hc : y < 10 ∨ H - 10 ≤ y ∨ x < 10 ∨ W - 10 ≤ x
    · rw [if_pos hc] at hv; omega
    · push_neg at hc; omega
  · rintro ⟨h1, h2⟩
    refine ⟨10, List.mem_range.mpr (by omega), decide_eq_true ?_⟩
    have hcnd : ¬(y < 10 ∨ H - 10 ≤ y ∨ (10 : ℕ) < 10 ∨ W - 10 ≤ 10) := by omega
    rw [if_neg hcnd]
    omega

/-- C3 (amended): for every target size with `W, H ≥ 21`, the source bbox
`warp_clothing` fits the homography and TPS control points from is the
fixed border-inset rectangle `(10, 10, W − 11, H − 11)` of the synthetic
full-clothing mask — independent of the garment's content. -/
theorem cloth_bbox_used_eq_border_inset (W H : ℕ) (hW : 21 ≤ W) (hH : 21 ≤ H) :
    cloth_bbox_used W H = some (10, 10, W - 11, H - 11) := by
  have hcolmem : ∀ x, x ∈ contentCols (cloth_mask_np W H) ↔ 10 ≤ x ∧ x + 11 ≤ W := by
    intro x
    rw [contentCols, List.mem_filter, List.mem_range]
    constructor
    · rintro ⟨_, hc⟩; exact (clothMask_colHasContent_iff W H x hH).mp hc
    · rintro ⟨h1, h2⟩
      exact ⟨by dsimp only [cloth_mask_np]; omega,
        (clothMask_colHasContent_iff W H x hH).mpr ⟨h1, h2⟩⟩
  have hrowmem : ∀ y, y ∈ contentRows (cloth_mask_np W H) ↔ 10 ≤ y ∧ y + 11 ≤ H := by
    intro y
    rw [contentRows, List.mem_filter, List.mem_range]
    constructor
    · rintro ⟨_, hc⟩; exact (clothMask_rowHasContent_iff W H y hW).mp hc
    · rintro ⟨h1, h2⟩
      exact ⟨by dsimp only [cloth_mask_np]; omega,
        (clothMask_rowHasContent_iff W H y hW).mpr ⟨h1, h2⟩⟩
  have hcolsorted : (contentCols (cloth_mask_np W H)).Pairwise (· < ·) :=
    (List.pairwise_lt_range W).filter _
  have hrowsorted : (contentRows (cloth_mask_np W H)).Pairwise (· < ·) :=
    (List.pairwise_lt_range H).filter _
  unfold cloth_bbox_used bbox_from_mask
  cases hcs : contentCols (cloth_mask_np W H) with
  | nil =>
    have : (10 : ℕ) ∈ contentCols (cloth_mask_np W H) :=
      (hcolmem 10).mpr ⟨le_rfl, by omega⟩
    rw [hcs] at this
    exact absurd this (List.not_mem_nil 10)
  | cons x0 xt =>
    cases hrs : contentRows (cloth_mask_np W H) with
    | nil =>
      have : (10 : ℕ) ∈ contentRows (cloth_mask_np W H) :=
        (hrowmem 10).mpr ⟨le_rfl, by omega⟩
      rw [hrs] at this
      exact absurd this (List.not_mem_nil 10)
    | cons y0 yt =>
      rw [hcs] at hcolsorted hcolmem
      rw [hrs] at hrowsorted hrowmem
      have hx0gt : ∀ x ∈ xt, x0 < x := (List.pairwise_cons.mp hcolsorted).1
      have hy0gt : ∀ y ∈ yt, y0 < y := (List.pairwise_cons.mp hrowsorted).1
      have hx0 : x0 = 10 := by
        have h10 : (10 : ℕ) ∈ x0 :: xt := (hcolmem 10).mpr ⟨le_rfl, by omega⟩
        have hx0ge : 10 ≤ x0 :=
          ((hcolmem x0).mp (List.mem_cons_self x0 xt)).1
        rcases List.mem_cons.mp h10 with h | h
        · omega
        · have := hx0gt 10 h; omega
      have hy0 : y0 = 10 := by
        have h10 : (10 : ℕ) ∈ y0 :: yt := (hrowmem 10).mpr ⟨le_rfl, by omega⟩
        have hy0ge : 10 ≤ y0 :=
          ((hrowmem y0).mp (List.mem_cons_self y0 yt)).1
        rcases List.mem_cons.mp h10 with h | h
        · omega
        · have := hy0gt 10 h; omega
      have hminx : xt.foldl min x0 = x0 :=
        foldl_min_eq_init x0 xt fun x hx => le_of_lt (hx0gt x hx)
      have hminy : yt.foldl min y0 = y0 :=
        foldl_min_eq_init y0 yt fun y hy => le_of_lt (hy0gt y hy)
      have hmaxx : xt.foldl max x0 = W - 11 := by
        apply foldl_max_eq_of
        · have : W - 11 ∈ x0 :: xt := (hcolmem (W - 11)).mpr ⟨by omega, by omega⟩
          rcases List.mem_cons.mp this with h | h
          · exact Or.inl h
          · exact Or.inr h
        · omega
        · intro x hx
          have := ((hcolmem x).mp (List.mem_cons_of_mem x0 hx)).2
          omega
      have hmaxy : yt.foldl max y0 = H - 11 := by
        apply foldl_max_eq_of
        · have : H - 11 ∈ y0 :: yt := (hrowmem (H - 11)).mpr ⟨by omega, by omega⟩
          rcases List.mem_cons.mp this with h | h
          · exact Or.inl h
          · exact Or.inr h
        · omega
        · intro y hy
          have := ((hrowmem y).mp (List.mem_cons_of_mem y0 hy)).2
          omega
      dsimp only
      rw [hminx, hminy, hmaxx, hmaxy, hx0, hy0]

/-- Witness for the amended C3 theorem at target size 30×30. -/
theorem cloth_bbox_used_eq_border_inset_witness :
    (21 ≤ 30) ∧ cloth_bbox_used 30 30 = some (10, 10, 30 - 11, 30 - 11) :=
  ⟨by decide, cloth_bbox_used_eq_border_inset 30 30 (by decide) (by decide)⟩

/-! ## Theorems: claims C4, C8, C6, C7 -/

/-- C4: inside `run_inpainting` the selection is indeed
first-non-empty-candidate, but the end-to-end pipeline never forwards the
segmentation-derived bbox — `run_tryon_pipeline` omits the `seg_face_bbox`
keyword, so the fallback argument is always `None`.  With no InsightFace
detection and segmentation bbox `(100, 100, 300, 300)`, the pipeline uses
no bbox at all while the claimed selection yields the segmentation bbox. -/
theorem pipeline_face_bbox_ignores_segmentation :
    pipeline_face_bbox_used none (some (100, 100, 300, 300)) = none ∧
    run_inpainting_face_bbox none (some (100, 100, 300, 300)) =
      some (100, 100, 300, 300) ∧
    pipeline_face_bbox_used none (some (100, 100, 300, 300)) ≠
      run_inpainting_face_bbox none (some (100, 100, 300, 300)) :=
  ⟨rfl, rfl, by decide⟩

/-- C8: `load_all_models` selects the CONSTRAINED (CPU-offload) strategy
exactly when `0 < capacity < VRAM_THRESHOLD_GB`; capacity `0` (no
accelerator) and capacities at or above the threshold select FULL
(loader.py:85-91). -/
theorem tier_constrained_iff (v : ℚ) :
    (select_tier v = .CONSTRAINED ↔ 0 < v ∧ v < VRAM_THRESHOLD_GB) ∧
    select_tier 0 = .FULL ∧
    (∀ w : ℚ, VRAM_THRESHOLD_GB ≤ w → select_tier w = .FULL) := by
  refine ⟨?_, by decide, fun w hw => ?_⟩
  · unfold select_tier low_vram
    constructor
    · intro h
      by_cases h1 : (0 : ℚ) < v ∧ v < VRAM_THRESHOLD_GB
      · exact h1
      · exfalso
        rw [if_neg] at h
        · exact ResourceTier.noConfusion h
        · simp only [Bool.and_eq_true, decide_eq_true_eq, not_and]
          intro h2 h3
          exact h1 ⟨h2, h3⟩
    · rintro ⟨h1, h2⟩
      rw [if_pos]
      simp only [Bool.and_eq_true, decide_eq_true_eq]
      exact ⟨h1, h2⟩
  · unfold select_tier low_vram
    rw [if_neg]
    simp only [Bool.and_eq_true, decide_eq_true_eq, not_and]
    intro _ h3
    exact absurd h3 (not_lt.mpr hw)

/-- Witness for the C8 theorem at concrete capacities 5, 0 and 12 GB. -/
theorem tier_constrained_iff_witness :
    select_tier 5 = .CONSTRAINED ∧ select_tier 0 = .FULL ∧
    VRAM_THRESHOLD_GB ≤ 12 ∧ select_tier 12 = .FULL :=
  ⟨(tier_constrained_iff 5).1.mpr ⟨by norm_num, by norm_num [VRAM_THRESHOLD_GB]⟩,
   (tier_constrained_iff 5).2.1,
   by norm_num [VRAM_THRESHOLD_GB],
   (tier_constrained_iff 5).2.2 12 (by norm_num [VRAM_THRESHOLD_GB])⟩

/-- C6: on a run where every stage succeeds, the observed `(stage,
progress)` pairs are exactly `segmentation/10, pose/25, warp/40,
inpainting/55, blend/85, done/100`; the progress values are non-decreasing
along that sequence, and the single terminal outcome is the success payload
`{job_id, "done", 100}` (tasks.py:50-107). -/
theorem pipeline_success_progress_sequence (job_id : String) (s : StageResults)
    (h : s.decode = .ok () ∧ s.seg = .ok () ∧ s.pose = .ok () ∧ s.warp = .ok () ∧
         s.inpaint = .ok () ∧ s.blend = .ok () ∧ s.upload = .ok ()) :
    observedPairs (run_tryon_pipeline job_id s) =
      [("segmentation", 10), ("pose", 25), ("warp", 40), ("inpainting", 55),
       ("blend", 85), ("done", 100)] ∧
    List.Chain' (· ≤ ·) ((observedPairs (run_tryon_pipeline job_id s)).map Prod.snd) ∧
    (run_tryon_pipeline job_id s).outcome = .success ⟨job_id, "done", 100⟩ := by
  obtain ⟨h1, h2, h3, h4, h5, h6, h7⟩ := h
  have hrun : run_tryon_pipeline job_id s =
      { emitted := [("segmentation", 10), ("pose", 25), ("warp", 40),
                    ("inpainting", 55), ("blend", 85)],
        freeGpuCalls := 1,
        outcome := .success ⟨job_id, "done", 100⟩ } := by
    unfold run_tryon_pipeline
    rw [h1, h2, h3, h4, h5, h6, h7]
    rfl
  rw [hrun]
  exact ⟨rfl, by norm_num [observedPairs, List.chain'_cons], rfl⟩

/-- Witness for the C6 theorem on the all-success stage results. -/
theorem pipeline_success_progress_sequence_witness :
    (stagesAllOk.decode = .ok () ∧ stagesAllOk.seg = .ok () ∧
     stagesAllOk.pose = .ok () ∧ stagesAllOk.warp = .ok () ∧
     stagesAllOk.inpaint = .ok () ∧ stagesAllOk.blend = .ok () ∧
     stagesAllOk.upload = .ok ()) ∧
    observedPairs (run_tryon_pipeline "job-1" stagesAllOk) =
      [("segmentation", 10), ("pose", 25), ("warp", 40), ("inpainting", 55),
       ("blend", 85), ("done", 100)] :=
  ⟨⟨rfl, rfl, rfl, rfl, rfl, rfl, rfl⟩,
   (pipeline_success_progress_sequence "job-1" stagesAllOk
     ⟨rfl, rfl, rfl, rfl, rfl, rfl, rfl⟩).1⟩

/-- C7: `free_gpu_memory` is invoked at least once on every execution path
of `run_tryon_pipeline` (after blending on success, in the `except` handler
on failure); and whenever the outcome is FAILURE, its structured meta holds
the job id together with the type name and message of the exception some
stage raised (tasks.py:91-116, loader.py:200-204). -/
theorem pipeline_free_gpu_and_failure_meta (job_id : String) (s : StageResults) :
    1 ≤ (run_tryon_pipeline job_id s).freeGpuCalls ∧
    (∀ t m j, (run_tryon_pipeline job_id s).outcome = .failure t m j →
      j = job_id ∧ ∃ e : ExcInfo, e.ty = t ∧ e.msg = m ∧
        (s.decode = .error e ∨ s.seg = .error e ∨ s.pose = .error e ∨
         s.warp = .error e ∨ s.inpaint = .error e ∨ s.blend = .error e ∨
         s.upload = .error e)) := by
  obtain ⟨d, sg, po, wa, ip, bl, up⟩ := s
  unfold run_tryon_pipeline
  dsimp only
  rcases d with e | u
  · exact ⟨le_rfl, fun t m j h => by
      cases h; exact ⟨rfl, e, rfl, rfl, Or.inl rfl⟩⟩
  · obtain ⟨⟩ := u
    rcases sg with e | u
    · exact ⟨le_rfl, fun t m j h => by
        cases h; exact ⟨rfl, e, rfl, rfl, Or.inr (Or.inl rfl)⟩⟩
    · obtain ⟨⟩ := u
      rcases po with e | u
      · exact ⟨le_rfl, fun t m j h => by
          cases h; exact ⟨rfl, e, rfl, rfl, Or.inr (Or.inr (Or.inl rfl))⟩⟩
      · obtain ⟨⟩ := u
        rcases wa with e | u
        · exact ⟨le_rfl, fun t m j h => by
            cases h
            exact ⟨rfl, e, rfl, rfl, Or.inr (Or.inr (Or.inr (Or.inl rfl)))⟩⟩
        · obtain ⟨⟩ := u
          rcases ip with e | u
          · exact ⟨le_rfl, fun t m j h => by
              cases h
              exact ⟨rfl, e, rfl, rfl,
                Or.inr (Or.inr (Or.inr (Or.inr (Or.inl rfl))))⟩⟩
          · obtain ⟨⟩ := u
            rcases bl with e | u
            · exact ⟨le_rfl, fun t m j h => by
                cases h
                exact ⟨rfl, e, rfl, rfl,
                  Or.inr (Or.inr (Or.inr (Or.inr (Or.inr (Or.inl rfl)))))⟩⟩
            · obtain ⟨⟩ := u
              rcases up with e | u
              · refine ⟨by norm_num [failRun], fun t m j h => by
                  cases h
                  exact ⟨rfl, e, rfl, rfl,
                    Or.inr (Or.inr (Or.inr (Or.inr (Or.inr (Or.inr rfl)))))⟩⟩
              · obtain ⟨⟩ := u
                exact ⟨le_rfl, fun t m j h => by cases h⟩

/-- Witness for the C7 theorem on a run whose segmentation stage raises
`ValueError("boom")`: release happens and the FAILURE meta is populated. -/
theorem pipeline_free_gpu_and_failure_meta_witness :
    1 ≤ (run_tryon_pipeline "job-2" stagesSegFails).freeGpuCalls ∧
    (run_tryon_pipeline "job-2" stagesSegFails).outcome =
      .failure "ValueError" "boom" "job-2" ∧
    ("job-2" = "job-2" ∧ ∃ e : ExcInfo, e.ty = "ValueError" ∧ e.msg = "boom" ∧
      (stagesSegFails.decode = .error e ∨ stagesSegFails.seg = .error e ∨
       stagesSegFails.pose = .error e ∨ stagesSegFails.warp = .error e ∨
       stagesSegFails.inpaint = .error e ∨ stagesSegFails.blend = .error e ∨
       stagesSegFails.upload = .error e)) :=
  ⟨(pipeline_free_gpu_and_failure_meta "job-2" stagesSegFails).1,
   rfl,
   (pipeline_free_gpu_and_failure_meta "job-2" stagesSegFails).2
     "ValueError" "boom" "job-2" rfl⟩

/-! ## Theorems: claim C2 -/

/-- A value occurring in a channel has a positive histogram count. -/
theorem hist_pos (px : List ℕ) (i : ℕ) (h : i ∈ px) : 0 < hist px i := by
  rw [hist, List.countP_pos_iff]
  exact ⟨i, h, by simp⟩

/-- Recurrence of the cumulative histogram. -/
theorem cdf_succ (px : List ℕ) (i : ℕ) :
    cdf px (i + 1) = cdf px i + hist px (i + 1) := by
  rw [cdf, cdf, List.range_succ, List.map_append, List.sum_append]
  simp

/-- The cumulative histogram is monotone in the bin index. -/
theorem cdf_mono (px : List ℕ) {i j : ℕ} (h : i ≤ j) : cdf px i ≤ cdf px j := by
  induction j, h using Nat.le_induction with
  | base => exact le_rfl
  | succ n hn ih =>
    rw [cdf_succ]
    omega

/-- When every 8-bit value occurs in the channel, the cumulative histogram
is strictly increasing on the bin range. -/
theorem cdf_strict (px : List ℕ) (hall : ∀ i < 256, i ∈ px) {i j : ℕ}
    (hij : i < j) (hj : j < 256) : cdf px i < cdf px j := by
  have h1 : cdf px i < cdf px (i + 1) := by
    have := hist_pos px (i + 1) (hall (i + 1) (by omega))
    rw [cdf_succ]
    omega
  exact lt_of_lt_of_le h1 (cdf_mono px hij)

/-- The total pixel count is positive once value 0 occurs. -/
theorem cdf_total_pos (px : List ℕ) (h0 : 0 ∈ px) : 0 < cdf px 255 := by
  have hz : 0 < cdf px 0 := by
    simpa [cdf, List.range_succ, List.range_zero] using hist_pos px 0 h0
  exact lt_of_lt_of_le hz (cdf_mono px (Nat.zero_le 255))

/-- Normalization by the positive total preserves strict comparisons of the
cumulative histogram (exactly, over `ℚ`). -/
theorem cdfNorm_lt_of_cdf_lt (px : List ℕ) (htot : 0 < cdf px 255) {i j : ℕ}
    (h : cdf px i < cdf px j) : cdfNorm px i < cdfNorm px j := by
  have htotQ : (0 : ℚ) < (cdf px 255 : ℚ) := by exact_mod_cast htot
  rw [cdfNorm, cdfNorm, div_lt_div_iff_of_pos_right htotQ]
  exact_mod_cast h

/-- The tie-resolving fold of `interpIdx` returns the unique `v < n` that
satisfies the predicate while every later index does not. -/
theorem foldl_last_sat (P : ℕ → Prop) [DecidablePred P] (v : ℕ) (n : ℕ)
    (hvn : v < n) (hv : P v) (hup : ∀ j, v < j → j < n → ¬ P j) :
    (List.range n).foldl (fun acc j => if P j then some j else acc) none =
      some v := by
  induction n with
  | zero => omega
  | succ m ih =>
    rw [List.range_succ, List.foldl_append]
    rcases Nat.lt_succ_iff_lt_or_eq.mp hvn with h | h
    · have hm : ¬ P m := hup m h (Nat.lt_succ_self m)
      rw [List.foldl_cons, List.foldl_nil, if_neg hm]
      exact ih h (fun j h1 h2 => hup j h1 (Nat.lt_succ_of_lt h2))
    · subst h
      rw [List.foldl_cons, List.foldl_nil, if_pos hv]

/-- The lookup table is the grid interpolation evaluated at the entry. -/
theorem getD_lutList (src ref : List ℕ) (v : ℕ) (hv : v < 256) :
    (lutList src ref).getD v 0 =
      npInterp (cdfNorm src v) (cdfNorm ref) (fun i => (i : ℚ)) := by
  rw [lutList, List.getD_eq_getElem?_getD, List.getElem?_map,
    List.getElem?_range hv]
  rfl

/-- With a strictly increasing self grid, `interpIdx` at a grid value
returns exactly its index. -/
theorem interpIdx_at_self (xp : ℕ → ℚ) (v : ℕ) (hv : v < 256)
    (hup : ∀ j, v < j → j < 256 → ¬ xp j ≤ xp v) :
    interpIdx xp (xp v) = some v := by
  rw [interpIdx]
  exact foldl_last_sat (fun j => xp j ≤ xp v) v 256 hv le_rfl hup

/-- Against itself, a full-range channel's lookup table is the identity on
every 8-bit value. -/
theorem lut_self_id (ch : List ℕ) (hall : ∀ i < 256, i ∈ ch) (v : ℕ)
    (hv : v < 256) :
    npInterp (cdfNorm ch v) (cdfNorm ch) (fun i => (i : ℚ)) = (v : ℚ) := by
  have htot : 0 < cdf ch 255 := cdf_total_pos ch (hall 0 (by omega))
  rw [npInterp, interpIdx_at_self (cdfNorm ch) v hv (fun j h1 h2 =>
    not_le.mpr (cdfNorm_lt_of_cdf_lt ch htot (cdf_strict ch hall h1 h2)))]
  dsimp only
  by_cases h255 : v = 255
  · subst h255
    simp
  · rw [if_neg h255, if_pos rfl]

/-- One channel of the self histogram match is the identity when the
channel contains every 8-bit value (and only 8-bit values). -/
theorem matchChannel_self_id (ch : List ℕ) (hall : ∀ i < 256, i ∈ ch)
    (hlt : ∀ v ∈ ch, v < 256) : matchChannel ch ch = ch := by
  rw [matchChannel]
  have key : ∀ v ∈ ch, (Int.floor ((lutList ch ch).getD v 0)).toNat = v := by
    intro v hv
    rw [getD_lutList ch ch v (hlt v hv), lut_self_id ch hall v (hlt v hv)]
    simp
  exact (List.map_congr_left key).trans (List.map_id ch)

/-- C2 (amended): per-channel histogram matching of an image against itself
is the exact identity when every channel contains all 256 intensities (in
general it is not: a pixel value maps to the largest bin sharing its
cumulative count, and the channel maximum maps to 255). -/
theorem histogram_match_self_identity_of_full_range (A : Rgb)
    (h1r : ∀ i < 256, i ∈ A.r) (h2r : ∀ v ∈ A.r, v < 256)
    (h1g : ∀ i < 256, i ∈ A.g) (h2g : ∀ v ∈ A.g, v < 256)
    (h1b : ∀ i < 256, i ∈ A.b) (h2b : ∀ v ∈ A.b, v < 256) :
    histogram_match A A = A := by
  obtain ⟨r, g, b⟩ := A
  rw [histogram_match]
  dsimp only at h1r h2r h1g h2g h1b h2b ⊢
  rw [matchChannel_self_id r h1r h2r, matchChannel_self_id g h1g h2g,
    matchChannel_self_id b h1b h2b]

set_option maxRecDepth 8192 in
/-- Witness for the amended C2 theorem: the image whose channels each hold
all 256 intensities is unchanged by self histogram matching. -/
theorem histogram_match_self_identity_witness :
    (∀ i < 256, i ∈ imgFullRange.r) ∧ (∀ v ∈ imgFullRange.r, v < 256) ∧
    histogram_match imgFullRange imgFullRange = imgFullRange :=
  ⟨by decide, by decide,
   histogram_match_self_identity_of_full_range imgFullRange
     (by decide) (by decide) (by decide) (by decide) (by decide) (by decide)⟩

set_option maxRecDepth 8192 in
/-- On the two-valued channel `[0, 0, 2, 2]`, the self lookup table maps
value 0 to 1: the normalized cumulative count at bins 0 and 1 ties at 1/2,
and numpy's interpolation resolves the tie to the LAST bin. -/
theorem lut_twoVals_at_zero :
    npInterp (cdfNorm chTwoVals 0) (cdfNorm chTwoVals) (fun i => (i : ℚ)) = 1 := by
  have hc0 : cdf chTwoVals 0 = 2 := by decide
  have hc1 : cdf chTwoVals 1 = 2 := by decide
  have hc2 : cdf chTwoVals 2 = 4 := by decide
  have hc255 : cdf chTwoVals 255 = 4 := by decide
  have htot : 0 < cdf chTwoVals 255 := by omega
  have hxp : cdfNorm chTwoVals 1 = cdfNorm chTwoVals 0 := by
    rw [cdfNorm, cdfNorm, hc0, hc1]
  have hidx : interpIdx (cdfNorm chTwoVals) (cdfNorm chTwoVals 0) = some 1 := by
    rw [interpIdx]
    apply foldl_last_sat (fun j => cdfNorm chTwoVals j ≤ cdfNorm chTwoVals 0)
      1 256 (by omega) (le_of_eq hxp)
    intro j h1 h2
    apply not_le.mpr
    apply cdfNorm_lt_of_cdf_lt chTwoVals htot
    have h4 : cdf chTwoVals 2 ≤ cdf chTwoVals j := cdf_mono chTwoVals (by omega)
    omega
  rw [npInterp, hidx]
  dsimp only
  rw [if_neg (show (1 : ℕ) ≠ 255 by omega), if_pos hxp]
  norm_num

/-- C2 (counterexample): self histogram matching is NOT the identity on the
non-degenerate (non-constant, two-valued) image with channels
`[0, 0, 2, 2]` — its first pixel of value 0 comes back as 1. -/
theorem histogram_match_self_not_identity :
    (histogram_match imgTwoVals imgTwoVals).r.headD 7 = 1 ∧
    imgTwoVals.r.headD 7 = 0 ∧
    histogram_match imgTwoVals imgTwoVals ≠ imgTwoVals := by
  have hhead : (histogram_match imgTwoVals imgTwoVals).r.headD 7 = 1 := by
    show (Int.floor ((lutList chTwoVals chTwoVals).getD 0 0)).toNat = 1
    rw [getD_lutList chTwoVals chTwoVals 0 (by omega), lut_twoVals_at_zero]
    simp
  refine ⟨hhead, rfl, fun he => ?_⟩
  have hc := congrArg (fun A : Rgb => A.r.headD 7) he
  dsimp only at hc
  rw [hhead] at hc
  exact absurd hc (by decide)

end Tryon
